import Mathlib

/-
Shallow embedding of the low-latency market-making core:
the bounded SPSC ring queue, the advanced risk engine (pre-trade checks,
position updates, volatility), the market-maker quote ladder, and the
stop-limit order trigger logic.  Doubles are modelled as rationals; the
transcendental functions `log` and `sqrt` of the volatility code are
passed in as explicit function parameters.  Machine-level conversions
(size_t truncation, size_t underflow) are modelled explicitly.
-/

abbrev SymId := String

/-- Half-away-from-zero rounding, the behaviour of C++ `std::round`. -/
def roundHalfAway (x : ℚ) : ℤ :=
  if 0 ≤ x then ⌊x + 1/2⌋ else ⌈x - 1/2⌉

/-- `MarketMaker::round_to_tick`: `std::round(price / tick_size) * tick_size`. -/
def round_to_tick (price tick_size : ℚ) : ℚ :=
  (roundHalfAway (price / tick_size) : ℚ) * tick_size

/-- C++ double-to-integer conversion truncates toward zero. -/
def ratTrunc (q : ℚ) : ℤ := Int.tdiv q.num (q.den : ℤ)

/-- Conversion of a double-valued size to the `size_t` field `Order::quantity`. -/
def toQuantity (q : ℚ) : ℕ := (ratTrunc q).toNat

structure Quote where
  symbol : SymId
  bid : ℚ
  ask : ℚ
  bid_size : ℕ
  ask_size : ℕ
  timestamp : ℤ

structure Trade where
  symbol : SymId
  price : ℚ
  quantity : ℕ
  is_buy : Bool
  timestamp : ℤ

structure Order where
  order_id : String
  symbol : SymId
  price : ℚ
  quantity : ℕ
  is_buy : Bool
  timestamp : ℤ
  status : String

/-- `LockFreeQueue<T>`: a bounded ring buffer with head and tail indices.
`N` is the ring size (`QUEUE_SIZE`, 1024 in the source). -/
structure LockFreeQueue (α : Type) (N : ℕ) where
  buffer : ℕ → α
  head : ℕ
  tail : ℕ

/-- A freshly constructed queue; `a0` is the default element filling the array. -/
def LockFreeQueue.emptyQ (a0 : α) (N : ℕ) : LockFreeQueue α N :=
  ⟨fun _ => a0, 0, 0⟩

/-- `LockFreeQueue::push`: fails with `full` when the next tail would equal the head. -/
def LockFreeQueue.push {N : ℕ} (q : LockFreeQueue α N) (item : α) :
    Bool × LockFreeQueue α N :=
  let current_tail := q.tail
  let next_tail := (current_tail + 1) % N
  if next_tail = q.head then
    (false, q)
  else
    (true, { buffer := fun i => if i = current_tail then item else q.buffer i,
             head := q.head, tail := next_tail })

/-- `LockFreeQueue::pop`: fails with `empty` when head equals tail. -/
def LockFreeQueue.pop {N : ℕ} (q : LockFreeQueue α N) :
    Option α × LockFreeQueue α N :=
  if q.head = q.tail then
    (none, q)
  else
    (some (q.buffer q.head), { q with head := (q.head + 1) % N })

/-- Push a list of items in order, recording each push's result. -/
def LockFreeQueue.pushList {N : ℕ} (q : LockFreeQueue α N) :
    List α → List Bool × LockFreeQueue α N
  | [] => ([], q)
  | x :: xs =>
    let r := q.push x
    let r2 := r.2.pushList xs
    (r.1 :: r2.1, r2.2)

/-- Pop up to `n` items, collecting the successfully popped values in order. -/
def LockFreeQueue.popN {N : ℕ} (q : LockFreeQueue α N) :
    ℕ → List α × LockFreeQueue α N
  | 0 => ([], q)
  | n + 1 =>
    match q.pop with
    | (none, q2) => ([], q2)
    | (some x, q2) =>
      let r := q2.popN n
      (x :: r.1, r.2)

/-- Per-symbol map with the semantics of `std::unordered_map` lookup:
`operator[]` inserts a value-initialized entry when the key is absent and
returns the (possibly just inserted) entry together with the updated map. -/
def getOrInsert {β : Type} (m : SymId → Option β) (s : SymId) (d : β) :
    β × (SymId → Option β) :=
  match m s with
  | some v => (v, m)
  | none => (d, fun t => if t = s then some d else m t)

/-- Overwrite (or insert) the entry of `s`. -/
def mapInsert {β : Type} (m : SymId → Option β) (s : SymId) (v : β) :
    SymId → Option β :=
  fun t => if t = s then some v else m t

structure RiskLimits where
  max_gross_position : ℚ
  max_net_position : ℚ
  max_dollar_exposure : ℚ
  var_limit : ℚ
  es_limit : ℚ
  max_drawdown_limit : ℚ
  max_position_duration : ℤ
  max_order_size : ℚ
  max_daily_loss : ℚ
  max_daily_trades : ℕ

structure RiskMetrics where
  gross_position : ℚ
  net_position : ℚ
  dollar_exposure : ℚ
  var_95 : ℚ
  expected_shortfall : ℚ
  max_drawdown : ℚ
  avg_position_duration : ℤ

/-- Value-initialized `RiskMetrics`, as produced by `unordered_map::operator[]`. -/
def defaultMetrics : RiskMetrics := ⟨0, 0, 0, 0, 0, 0, 0⟩

structure PositionTracker where
  position : ℚ
  vwap : ℚ
  realized_pnl : ℚ
  unrealized_pnl : ℚ
  recent_trades : List Trade
  last_update : ℤ

/-- Value-initialized `PositionTracker`, as produced by `unordered_map::operator[]`. -/
def defaultTracker : PositionTracker := ⟨0, 0, 0, 0, [], 0⟩

/-- `AdvancedRiskManager::VolatilityCalculator` state. -/
structure VolatilityCalculator where
  price_history : List ℚ
  returns : List ℚ
  window_size : ℕ

/-- Value-initialized calculator: empty deques and `window_size = 0`. -/
def defaultVolCalc : VolatilityCalculator := ⟨[], [], 0⟩

/-- `VolatilityCalculator::update`.  `log` is the abstract `std::log`.
The eviction bound on `returns` is `window_size - 1` in `size_t`
arithmetic, which wraps to `2^64 - 1` when `window_size = 0`. -/
def VolatilityCalculator.update (log : ℚ → ℚ) (c : VolatilityCalculator)
    (price : ℚ) : VolatilityCalculator :=
  let ph0 := c.price_history ++ [price]
  let ph := if ph0.length > c.window_size then ph0.tail else ph0
  if ph.length > 1 then
    let ret := log (price / ph.getD (ph.length - 2) 0)
    let rs0 := c.returns ++ [ret]
    let lim := if c.window_size = 0 then 2 ^ 64 - 1 else c.window_size - 1
    let rs := if rs0.length > lim then rs0.tail else rs0
    { c with price_history := ph, returns := rs }
  else
    { c with price_history := ph }

/-- `VolatilityCalculator::calculate_volatility`.  `sqrt` is the abstract
`std::sqrt`. -/
def VolatilityCalculator.calculate_volatility (sqrt : ℚ → ℚ)
    (c : VolatilityCalculator) : ℚ :=
  if c.returns.length < 2 then 0
  else
    let n : ℚ := c.returns.length
    let sum := c.returns.sum
    let sum_sq := (c.returns.map (fun r => r * r)).sum
    sqrt (sum_sq / n - (sum / n) * (sum / n))

/-- The mutable maps of `AdvancedRiskManager`. -/
structure AdvancedRiskManager where
  risk_metrics : SymId → Option RiskMetrics
  risk_limits : SymId → Option RiskLimits
  positions : SymId → Option PositionTracker
  volatility_calculators : SymId → Option VolatilityCalculator

/-- `AdvancedRiskManager::calculate_var_95`: `|position| * vol * 1.645`,
together with the state after the `operator[]` lookup of the calculator. -/
def AdvancedRiskManager.calculate_var_95 (sqrt : ℚ → ℚ)
    (st : AdvancedRiskManager) (symbol : SymId) (position : ℚ) :
    ℚ × AdvancedRiskManager :=
  let cr := getOrInsert st.volatility_calculators symbol defaultVolCalc
  let vol := cr.1.calculate_volatility sqrt
  (|position| * vol * 1.645, { st with volatility_calculators := cr.2 })

/-- `AdvancedRiskManager::calculate_expected_shortfall`: `1.2 * VaR`. -/
def AdvancedRiskManager.calculate_expected_shortfall (sqrt : ℚ → ℚ)
    (st : AdvancedRiskManager) (symbol : SymId) (position : ℚ) :
    ℚ × AdvancedRiskManager :=
  let vr := AdvancedRiskManager.calculate_var_95 sqrt st symbol position
  (vr.1 * 1.2, vr.2)

/-- `AdvancedRiskManager::check_order`, returning the boolean verdict and
the state after the `operator[]` lookups. -/
def AdvancedRiskManager.check_order (sqrt : ℚ → ℚ)
    (st : AdvancedRiskManager) (o : Order) : Bool × AdvancedRiskManager :=
  match st.risk_limits o.symbol with
  | none => (false, st)
  | some limits =>
    let pr := getOrInsert st.positions o.symbol defaultTracker
    let st1 : AdvancedRiskManager := { st with positions := pr.2 }
    if (o.quantity : ℚ) > limits.max_order_size then (false, st1)
    else
      let new_position :=
        if o.is_buy then pr.1.position + (o.quantity : ℚ)
        else pr.1.position - (o.quantity : ℚ)
      if |new_position| > limits.max_net_position then (false, st1)
      else
        let vr := AdvancedRiskManager.calculate_var_95 sqrt st1 o.symbol new_position
        if vr.1 > limits.var_limit then (false, vr.2)
        else
          let er := AdvancedRiskManager.calculate_expected_shortfall sqrt vr.2 o.symbol new_position
          if er.1 > limits.es_limit then (false, er.2)
          else (true, er.2)

/-- `AdvancedRiskManager::update_position`.  Rational division gives
`new_vwap = 0` when the new position is zero, where C++ doubles produce
an infinity or NaN. -/
def AdvancedRiskManager.update_position (log : ℚ → ℚ)
    (st : AdvancedRiskManager) (symbol : SymId) (trade : Trade) :
    AdvancedRiskManager :=
  let pr := getOrInsert st.positions symbol defaultTracker
  let mr := getOrInsert st.risk_metrics symbol defaultMetrics
  let position := pr.1
  let new_pos :=
    if trade.is_buy then position.position + (trade.quantity : ℚ)
    else position.position - (trade.quantity : ℚ)
  let old_value := position.vwap * (new_pos - (trade.quantity : ℚ))
  let trade_value := trade.price * (trade.quantity : ℚ)
  let new_vwap := (old_value + trade_value) / new_pos
  let new_unreal := (trade.price - new_vwap) * new_pos
  let metrics2 :=
    { mr.1 with gross_position := |new_pos|, net_position := new_pos,
                dollar_exposure := new_pos * trade.price }
  let cr := getOrInsert st.volatility_calculators symbol defaultVolCalc
  let calc2 := cr.1.update log trade.price
  let rt0 := position.recent_trades ++ [trade]
  let rt := rt0.drop (rt0.length - 1000)
  let tracker2 :=
    { position with position := new_pos, vwap := new_vwap,
                    unrealized_pnl := new_unreal, recent_trades := rt }
  { risk_metrics := mapInsert mr.2 symbol metrics2,
    risk_limits := st.risk_limits,
    positions := mapInsert pr.2 symbol tracker2,
    volatility_calculators := mapInsert cr.2 symbol calc2 }

/-- The hypothetical position after `o` executes, read the way
`check_order` reads it (value-initialized tracker when absent). -/
def posAfter (st : AdvancedRiskManager) (o : Order) : ℚ :=
  let p := ((st.positions o.symbol).getD defaultTracker).position
  if o.is_buy then p + (o.quantity : ℚ) else p - (o.quantity : ℚ)

/-- The current volatility estimate `check_order` uses for a symbol. -/
def sigmaFor (sqrt : ℚ → ℚ) (st : AdvancedRiskManager) (s : SymId) : ℚ :=
  ((st.volatility_calculators s).getD defaultVolCalc).calculate_volatility sqrt

structure MarketMakingParams where
  spread_percentage : ℚ
  base_position_size : ℚ
  inventory_skew_factor : ℚ
  min_tick_size : ℚ
  levels : ℕ
  level_spacing : ℚ

structure InventoryMetrics where
  current_position : ℚ
  dollar_exposure : ℚ
  vwap_price : ℚ
  position_duration : ℤ

/-- Value-initialized `InventoryMetrics`, as produced by `operator[]`. -/
def defaultInventory : InventoryMetrics := ⟨0, 0, 0, 0⟩

/-- `MarketMaker::VolatilityEstimator` state.  The source pushes both raw
prices and log-returns into the single `returns` deque. -/
structure VolatilityEstimator where
  returns : List ℚ
  window_size : ℕ
  current_volatility : ℚ

/-- Value-initialized estimator: empty deque, `window_size = 0`, volatility 0. -/
def defaultEstimator : VolatilityEstimator := ⟨[], 0, 0⟩

/-- `MarketMaker::VolatilityEstimator::update`.  `log`, `sqrt` are the
abstract `std::log` and `std::sqrt`. -/
def VolatilityEstimator.update (log sqrt : ℚ → ℚ) (e : VolatilityEstimator)
    (price : ℚ) : VolatilityEstimator :=
  let e2 :=
    match e.returns.getLast? with
    | none => e
    | some back =>
      let ret := log (price / back)
      let rs0 := e.returns ++ [ret]
      let rs := if rs0.length > e.window_size then rs0.tail else rs0
      let n : ℚ := rs.length
      let sum := rs.sum
      let sum_sq := (rs.map (fun r => r * r)).sum
      { e with returns := rs,
               current_volatility := sqrt (sum_sq / n - (sum / n) * (sum / n)) }
  { e2 with returns := e2.returns ++ [price] }

/-- `inventory_ratio = current_position / base_position_size`. -/
def inventoryRatio (params : MarketMakingParams) (position : ℚ) : ℚ :=
  position / params.base_position_size

/-- `adjusted_spread = spread_pct * (1 + inventory_ratio * skew_factor * vol)`. -/
def adjustedSpread (params : MarketMakingParams)
    (inventory_ratio current_vol : ℚ) : ℚ :=
  params.spread_percentage *
    (1 + inventory_ratio * params.inventory_skew_factor * current_vol)

/-- `level_multiplier = 1 + level * level_spacing`. -/
def levelMultiplier (params : MarketMakingParams) (level : ℕ) : ℚ :=
  1 + (level : ℚ) * params.level_spacing

/-- The bid price of a ladder level, after tick rounding. -/
def bidPx (params : MarketMakingParams)
    (inventory_ratio adjusted_spread mid : ℚ) (level : ℕ) : ℚ :=
  round_to_tick
    (mid * (1 - adjusted_spread * levelMultiplier params level +
            inventory_ratio * params.inventory_skew_factor))
    params.min_tick_size

/-- The ask price of a ladder level, after tick rounding. -/
def askPx (params : MarketMakingParams)
    (inventory_ratio adjusted_spread mid : ℚ) (level : ℕ) : ℚ :=
  round_to_tick
    (mid * (1 + adjusted_spread * levelMultiplier params level +
            inventory_ratio * params.inventory_skew_factor))
    params.min_tick_size

/-- `base_size / 2^level`, the double-valued size of a ladder level. -/
def levelSize (params : MarketMakingParams) (level : ℕ) : ℚ :=
  params.base_position_size / 2 ^ level

/-- The `Order` built by `MarketMaker::submit_maker_order`: the double
size is truncated by the `size_t` field, the id is `"MM_" ++ counter`,
and the status string is default-constructed (empty). -/
def mkMakerOrder (symbol : SymId) (is_buy : Bool) (price size : ℚ)
    (k : ℕ) (now : ℤ) : Order :=
  { order_id := "MM_" ++ toString k, symbol := symbol, price := price,
    quantity := toQuantity size, is_buy := is_buy, timestamp := now,
    status := "" }

/-- The per-level orders generated by one `update_quotes` call, in
submission order (bid then ask per level); `k0` is the value of the
global order-id counter at entry. -/
def ladderOrders (params : MarketMakingParams) (symbol : SymId)
    (inventory_ratio adjusted_spread mid : ℚ) (k0 : ℕ) (now : ℤ) :
    List Order :=
  (List.range params.levels).flatMap (fun level =>
    [ mkMakerOrder symbol true
        (bidPx params inventory_ratio adjusted_spread mid level)
        (levelSize params level) (k0 + 2 * level) now,
      mkMakerOrder symbol false
        (askPx params inventory_ratio adjusted_spread mid level)
        (levelSize params level) (k0 + 2 * level + 1) now ])

/-- The mutable maps of `MarketMaker`. -/
structure MarketMaker where
  symbol_params : SymId → Option MarketMakingParams
  inventory : SymId → Option InventoryMetrics
  volatility_estimators : SymId → Option VolatilityEstimator
  active_orders : SymId → List Order

structure UpdateQuotesResult where
  maker : MarketMaker
  emitted : List Order
  counter : ℕ

/-- `MarketMaker::update_quotes`.  `riskOK` abstracts
`risk_manager_.check_order`; orders passing it are submitted to the order
manager and recorded as active (existing actives are cancelled first);
`counter`/`now` abstract the global order-id counter and the clock. -/
def MarketMaker.update_quotes (log sqrt : ℚ → ℚ) (riskOK : Order → Bool)
    (mm : MarketMaker) (symbol : SymId) (market_quote : Quote)
    (counter : ℕ) (now : ℤ) : UpdateQuotesResult :=
  match mm.symbol_params symbol with
  | none => ⟨mm, [], counter⟩
  | some params =>
    let ir := getOrInsert mm.inventory symbol defaultInventory
    let er := getOrInsert mm.volatility_estimators symbol defaultEstimator
    let mid := (market_quote.bid + market_quote.ask) / 2
    let est := er.1.update log sqrt mid
    let current_vol := est.current_volatility
    let inventory_ratio := inventoryRatio params ir.1.current_position
    let adjusted_spread := adjustedSpread params inventory_ratio current_vol
    let candidates := ladderOrders params symbol inventory_ratio adjusted_spread mid counter now
    let emitted := candidates.filter riskOK
    ⟨{ symbol_params := mm.symbol_params,
       inventory := ir.2,
       volatility_estimators := mapInsert er.2 symbol est,
       active_orders := fun t => if t = symbol then emitted else mm.active_orders t },
     emitted, counter + 2 * params.levels⟩

/-- `StopLimitOrder` (the `BaseOrder` fields plus its own). -/
structure StopLimitOrder where
  order_id : String
  symbol : SymId
  is_buy : Bool
  quantity : ℚ
  timestamp : ℤ
  stop_price : ℚ
  limit_price : ℚ
  stop_triggered : Bool

/-- The stop condition of `StopLimitOrder::should_trigger`. -/
def stopCond (o : StopLimitOrder) (q : Quote) : Bool :=
  if o.is_buy then decide (q.ask ≥ o.stop_price) else decide (q.bid ≤ o.stop_price)

/-- The limit condition of `StopLimitOrder::should_trigger`. -/
def limitCond (o : StopLimitOrder) (q : Quote) : Bool :=
  if o.is_buy then decide (q.ask ≤ o.limit_price) else decide (q.bid ≥ o.limit_price)

/-- `StopLimitOrder::should_trigger`, returning the verdict and the
mutated order state. -/
def StopLimitOrder.should_trigger (o : StopLimitOrder) (q : Quote) :
    Bool × StopLimitOrder :=
  if o.stop_triggered = false then
    (false, { o with stop_triggered := stopCond o q })
  else
    (limitCond o q, o)

/-- Example tracker: long 10 units at VWAP 100. -/
def exTracker : PositionTracker := ⟨10, 100, 0, 0, [], 0⟩

/-- Example risk state: one symbol "A" holding `exTracker`. -/
def exRisk : AdvancedRiskManager :=
  { risk_metrics := fun _ => none,
    risk_limits := fun _ => none,
    positions := fun t => if t = "A" then some exTracker else none,
    volatility_calculators := fun _ => none }

/-- Example trade: sell 5 at 110, reducing the long position of `exRisk`. -/
def exSellTrade : Trade := ⟨"A", 110, 5, false, 0⟩

/-- Example limits: tight net-position cap, loose everything else. -/
def exLimits : RiskLimits := ⟨1000, 14, 0, 1000, 1000, 0, 0, 100, 0, 0⟩

/-- Risk state with position `p` on symbol "A" under `exLimits`. -/
def exState (p : ℚ) : AdvancedRiskManager :=
  { risk_metrics := fun _ => none,
    risk_limits := fun t => if t = "A" then some exLimits else none,
    positions := fun t => if t = "A" then some { defaultTracker with position := p } else none,
    volatility_calculators := fun _ => none }

/-- Example order: buy 10 of "A". -/
def exBuyOrder : Order := ⟨"o1", "A", 0, 10, true, 0, "NEW"⟩

/-- S1-like parameters with a one-unit tick. -/
def exParamsCoarse : MarketMakingParams := ⟨1/1000, 100, 0, 1, 3, 1/2⟩

/-- S2 parameters: `skew_factor = 0.2`. -/
def exParamsSkew : MarketMakingParams := ⟨1/1000, 100, 1/5, 1/100, 3, 1/2⟩

/-- S1 parameters with four levels. -/
def exParamsFour : MarketMakingParams := ⟨1/1000, 100, 0, 1/100, 4, 1/2⟩

/-- A maker configured for symbol "A" with parameters `p`, flat state. -/
def exMaker (p : MarketMakingParams) : MarketMaker :=
  { symbol_params := fun t => if t = "A" then some p else none,
    inventory := fun _ => none,
    volatility_estimators := fun _ => none,
    active_orders := fun _ => [] }

/-- A maker configured for "A" with parameters `p` and inventory `pos`. -/
def exMakerPos (p : MarketMakingParams) (pos : ℚ) : MarketMaker :=
  { symbol_params := fun t => if t = "A" then some p else none,
    inventory := fun t => if t = "A" then some { defaultInventory with current_position := pos } else none,
    volatility_estimators := fun _ => none,
    active_orders := fun _ => [] }

/-- Quote with mid 10.6 (bid 10.5, ask 10.7). -/
def exQuoteOddMid : Quote := ⟨"A", 21/2, 107/10, 0, 0, 0⟩

/-- Quote with mid 100 (bid 99.9, ask 100.1). -/
def exQuoteMidHundred : Quote := ⟨"A", 999/10, 1001/10, 0, 0, 0⟩

/-- A concrete square root assigning the one value the witness needs. -/
def exSqrt : ℚ → ℚ := fun q => if q = 4 then 2 else 0

theorem getOrInsert_fst {β : Type} (m : SymId → Option β) (s : SymId) (d : β) :
    (getOrInsert m s d).1 = (m s).getD d := by
  cases h : m s <;> simp [getOrInsert, h]

theorem getOrInsert_snd_apply_self {β : Type} (m : SymId → Option β) (s : SymId) (d : β) :
    (getOrInsert m s d).2 s = some ((m s).getD d) := by
  cases h : m s <;> simp [getOrInsert, h]

theorem getOrInsert_snd_apply_ne {β : Type} (m : SymId → Option β) (s t : SymId) (d : β)
    (h : t ≠ s) : (getOrInsert m s d).2 t = m t := by
  cases h2 : m s <;> simp [getOrInsert, h2, h]

theorem getOrInsert_snd_getD {β : Type} (m : SymId → Option β) (s t : SymId) (d : β) :
    ((getOrInsert m s d).2 t).getD d = (m t).getD d := by
  by_cases h : t = s
  · subst h; rw [getOrInsert_snd_apply_self]; rfl
  · rw [getOrInsert_snd_apply_ne m s t d h]

theorem getOrInsert_snd_cases {β : Type} (m : SymId → Option β) (s : SymId) (d : β) :
    (getOrInsert m s d).2 s = m s ∨ (m s = none ∧ (getOrInsert m s d).2 s = some d) := by
  cases h : m s with
  | none => right; exact ⟨rfl, by simp [getOrInsert, h]⟩
  | some v => left; simp [getOrInsert, h]

theorem calculate_var_95_fst (sqrt : ℚ → ℚ) (st : AdvancedRiskManager)
    (symbol : SymId) (position : ℚ) :
    (AdvancedRiskManager.calculate_var_95 sqrt st symbol position).1 =
      |position| * sigmaFor sqrt st symbol * 1.645 := by
  simp [AdvancedRiskManager.calculate_var_95, sigmaFor, getOrInsert_fst]

theorem sigmaFor_calculate_var_95_snd (sqrt : ℚ → ℚ) (st : AdvancedRiskManager)
    (symbol : SymId) (position : ℚ) :
    sigmaFor sqrt (AdvancedRiskManager.calculate_var_95 sqrt st symbol position).2 symbol
      = sigmaFor sqrt st symbol := by
  simp [AdvancedRiskManager.calculate_var_95, sigmaFor, getOrInsert_snd_getD]

theorem calculate_expected_shortfall_fst (sqrt : ℚ → ℚ) (st : AdvancedRiskManager)
    (symbol : SymId) (position : ℚ) :
    (AdvancedRiskManager.calculate_expected_shortfall sqrt st symbol position).1 =
      |position| * sigmaFor sqrt st symbol * 1.645 * 1.2 := by
  simp [AdvancedRiskManager.calculate_expected_shortfall, calculate_var_95_fst]

theorem check_order_true_iff (sqrt : ℚ → ℚ) (st : AdvancedRiskManager) (o : Order) :
    (AdvancedRiskManager.check_order sqrt st o).1 = true ↔
      ∃ limits, st.risk_limits o.symbol = some limits ∧
        (o.quantity : ℚ) ≤ limits.max_order_size ∧
        |posAfter st o| ≤ limits.max_net_position ∧
        |posAfter st o| * sigmaFor sqrt st o.symbol * 1.645 ≤ limits.var_limit ∧
        |posAfter st o| * sigmaFor sqrt st o.symbol * 1.645 * 1.2 ≤ limits.es_limit := by
  unfold AdvancedRiskManager.check_order
  cases h : st.risk_limits o.symbol with
  | none => simp [h]
  | some limits =>
    have hst1 : sigmaFor sqrt
        { st with positions := (getOrInsert st.positions o.symbol defaultTracker).2 }
        o.symbol = sigmaFor sqrt st o.symbol := rfl
    have hpa : (if o.is_buy
          then (getOrInsert st.positions o.symbol defaultTracker).1.position + (o.quantity : ℚ)
          else (getOrInsert st.positions o.symbol defaultTracker).1.position - (o.quantity : ℚ))
        = posAfter st o := by
      simp [posAfter, getOrInsert_fst]
    simp only [h]
    simp only [hpa, calculate_var_95_fst, calculate_expected_shortfall_fst,
      sigmaFor_calculate_var_95_snd, hst1]
    split_ifs with h1 h2 h3 h4 <;>
      simp only [Bool.false_eq_true, false_iff, true_iff, Option.some.injEq] <;>
      [skip; skip; skip; skip; skip]
    · rintro ⟨l, hl, hq, _⟩
      exact absurd hq (by rw [← hl]; exact not_le.2 h1)
    · rintro ⟨l, hl, _, hn, _⟩
      exact absurd hn (by rw [← hl]; exact not_le.2 h2)
    · rintro ⟨l, hl, _, _, hv, _⟩
      exact absurd hv (by rw [← hl]; exact not_le.2 h3)
    · rintro ⟨l, hl, _, _, _, he⟩
      exact absurd he (by rw [← hl]; exact not_le.2 h4)
    · exact ⟨limits, rfl, not_lt.1 h1, not_lt.1 h2, not_lt.1 h3, not_lt.1 h4⟩

/-- Claim C1 (confirmed): `check_order(order)` returns true if and only if
risk limits are configured for `order.symbol`, `order.quantity` is at most
`max_order_size`, `|position ± order.quantity|` is at most
`max_net_position` (sign from `is_buy`), the VaR
`|position_after| * sigma * 1.645` of the hypothetical new position is at
most `var_limit`, and the expected shortfall `1.2 * VaR` is at most
`es_limit`; with no configured limits it returns false for every order. -/
theorem check_order_spec (sqrt : ℚ → ℚ) (st : AdvancedRiskManager) (o : Order) :
    (AdvancedRiskManager.check_order sqrt st o).1 = true ↔
      ∃ limits, st.risk_limits o.symbol = some limits ∧
        (o.quantity : ℚ) ≤ limits.max_order_size ∧
        |posAfter st o| ≤ limits.max_net_position ∧
        |posAfter st o| * sigmaFor sqrt st o.symbol * 1.645 ≤ limits.var_limit ∧
        |posAfter st o| * sigmaFor sqrt st o.symbol * 1.645 * 1.2 ≤ limits.es_limit :=
  check_order_true_iff sqrt st o


theorem bool_eq_false_of_not_true {b : Bool} (h : ¬ b = true) : b = false := by
  cases b
  · rfl
  · exact absurd rfl h

theorem posAfter_exState (p : ℚ) : posAfter (exState p) exBuyOrder = p + 10 := by
  simp [posAfter, exState, exBuyOrder, defaultTracker]

theorem sigmaFor_exState (sqrt : ℚ → ℚ) (p : ℚ) (s : SymId) :
    sigmaFor sqrt (exState p) s = 0 := by
  simp [sigmaFor, exState, defaultVolCalc, VolatilityCalculator.calculate_volatility]

theorem check_order_exState_pos5_false :
    (AdvancedRiskManager.check_order (fun q => q) (exState 5) exBuyOrder).1 = false := by
  apply bool_eq_false_of_not_true
  rw [check_order_true_iff]
  rintro ⟨l, hl, -, hn, -, -⟩
  have hl2 : l = exLimits := by
    simp [exState, exBuyOrder] at hl
    exact hl.symm
  rw [posAfter_exState, hl2] at hn
  norm_num [exLimits] at hn

/-- Claim C3 (counterexample): two states agreeing on limits and
volatility for "A", the second with strictly greater `|position|`
(`|-10| > |5|`), yet `check_order` rejects the buy of 10 in the first
state (position-after 15 exceeds the net cap 14) and accepts it in the
second (position-after 0). -/
theorem check_order_abs_position_not_monotone :
    (exState (-10)).risk_limits "A" = (exState 5).risk_limits "A" ∧
    sigmaFor (fun q => q) (exState (-10)) "A" = sigmaFor (fun q => q) (exState 5) "A" ∧
    (((exState 5).positions "A").getD defaultTracker).position = 5 ∧
    (((exState (-10)).positions "A").getD defaultTracker).position = -10 ∧
    |(-10 : ℚ)| > |(5 : ℚ)| ∧
    (AdvancedRiskManager.check_order (fun q => q) (exState 5) exBuyOrder).1 = false ∧
    (AdvancedRiskManager.check_order (fun q => q) (exState (-10)) exBuyOrder).1 = true := by
  refine ⟨rfl, rfl, by simp [exState], by simp [exState], by norm_num,
    check_order_exState_pos5_false, ?_⟩
  rw [check_order_true_iff]
  refine ⟨exLimits, by simp [exState, exBuyOrder], ?_, ?_, ?_, ?_⟩
  · norm_num [exLimits, exBuyOrder]
  · rw [posAfter_exState]; norm_num [exLimits]
  · rw [posAfter_exState, sigmaFor_exState]; norm_num [exLimits]
  · rw [posAfter_exState, sigmaFor_exState]; norm_num [exLimits]

/-- Claim C3 (amended): rejection is monotone in the absolute value of the
hypothetical position after the order, not of the current position: if
`check_order(o)` returns false in `S` it returns false in every state
agreeing on limits and (nonnegative) volatility for `o.symbol` whose
`|position_after|` is at least that of `S`. -/
theorem check_order_monotone_abs_after (sqrt : ℚ → ℚ)
    (st st2 : AdvancedRiskManager) (o : Order)
    (hlim : st2.risk_limits o.symbol = st.risk_limits o.symbol)
    (hsig : sigmaFor sqrt st2 o.symbol = sigmaFor sqrt st o.symbol)
    (hpos : 0 ≤ sigmaFor sqrt st o.symbol)
    (habs : |posAfter st o| ≤ |posAfter st2 o|)
    (hfalse : (AdvancedRiskManager.check_order sqrt st o).1 = false) :
    (AdvancedRiskManager.check_order sqrt st2 o).1 = false := by
  by_contra hne
  have h2 : (AdvancedRiskManager.check_order sqrt st2 o).1 = true := by
    cases hb : (AdvancedRiskManager.check_order sqrt st2 o).1
    · exact absurd hb hne
    · rfl
  rw [check_order_true_iff] at h2
  obtain ⟨l, hl, hq, hn, hv, he⟩ := h2
  have hvar : |posAfter st o| * sigmaFor sqrt st o.symbol * 1.645
      ≤ |posAfter st2 o| * sigmaFor sqrt st2 o.symbol * 1.645 := by
    rw [hsig]
    have := mul_le_mul_of_nonneg_right habs hpos
    exact mul_le_mul_of_nonneg_right this (by norm_num)
  have htrue : (AdvancedRiskManager.check_order sqrt st o).1 = true := by
    rw [check_order_true_iff]
    refine ⟨l, by rw [← hlim]; exact hl, hq, le_trans habs hn, le_trans hvar hv, ?_⟩
    exact le_trans (mul_le_mul_of_nonneg_right hvar (by norm_num)) he
  rw [htrue] at hfalse
  exact Bool.noConfusion hfalse

/-- Claim C3 (witness): with the same limits and zero volatility, a state
whose position 20 gives `|position_after| = 30 ≥ 15`, so the rejection of
the buy of 10 carries over from the position-5 state. -/
theorem check_order_monotone_abs_after_witness :
    (AdvancedRiskManager.check_order (fun q => q) (exState 20) exBuyOrder).1 = false :=
  check_order_monotone_abs_after (fun q => q) (exState 5) (exState 20) exBuyOrder
    rfl rfl
    (by rw [sigmaFor_exState])
    (by rw [posAfter_exState, posAfter_exState]; norm_num)
    check_order_exState_pos5_false

theorem getOrInsert_again {β : Type} (m : SymId → Option β) (s : SymId) (d : β) :
    (getOrInsert (getOrInsert m s d).2 s d).2 = (getOrInsert m s d).2 := by
  cases h : m s with
  | some v => simp [getOrInsert, h]
  | none => simp [getOrInsert, h]

/-- Claim C9 (confirmed): `check_order` leaves the limits map, the metrics
map, and every other symbol's position and volatility state unchanged;
for `order.symbol` its only effect is the possible lazy insertion of a
value-initialized position tracker and volatility calculator. -/
theorem check_order_frame (sqrt : ℚ → ℚ) (st : AdvancedRiskManager) (o : Order) :
    ((AdvancedRiskManager.check_order sqrt st o).2.risk_limits = st.risk_limits) ∧
    ((AdvancedRiskManager.check_order sqrt st o).2.risk_metrics = st.risk_metrics) ∧
    (∀ s, s ≠ o.symbol →
      (AdvancedRiskManager.check_order sqrt st o).2.positions s = st.positions s ∧
      (AdvancedRiskManager.check_order sqrt st o).2.volatility_calculators s
        = st.volatility_calculators s) ∧
    ((AdvancedRiskManager.check_order sqrt st o).2.positions o.symbol
        = st.positions o.symbol ∨
      (st.positions o.symbol = none ∧
       (AdvancedRiskManager.check_order sqrt st o).2.positions o.symbol
         = some defaultTracker)) ∧
    ((AdvancedRiskManager.check_order sqrt st o).2.volatility_calculators o.symbol
        = st.volatility_calculators o.symbol ∨
      (st.volatility_calculators o.symbol = none ∧
       (AdvancedRiskManager.check_order sqrt st o).2.volatility_calculators o.symbol
         = some defaultVolCalc)) := by
  have hposcases := getOrInsert_snd_cases st.positions o.symbol defaultTracker
  have hvolcases := getOrInsert_snd_cases st.volatility_calculators o.symbol defaultVolCalc
  unfold AdvancedRiskManager.check_order
  cases h : st.risk_limits o.symbol with
  | none => exact ⟨rfl, rfl, fun s _ => ⟨rfl, rfl⟩, Or.inl rfl, Or.inl rfl⟩
  | some limits =>
    simp only [h]
    unfold AdvancedRiskManager.calculate_expected_shortfall
      AdvancedRiskManager.calculate_var_95
    simp only [getOrInsert_again]
    split_ifs
    all_goals refine ⟨rfl, rfl, fun s hs => ⟨?_, ?_⟩, ?_, ?_⟩
    all_goals first
      | exact getOrInsert_snd_apply_ne st.positions o.symbol s defaultTracker hs
      | exact getOrInsert_snd_apply_ne st.volatility_calculators o.symbol s defaultVolCalc hs
      | exact rfl
      | exact hposcases
      | exact hvolcases
      | exact Or.inl rfl

/-- Claim C2 (code_bug): for the reducing sell of 5 at 110 against a long
position of 10 at VWAP 100, `update_position` recomputes the VWAP as 110
(its update formula `(vwap * (new_pos - quantity) + price * quantity) /
new_pos` is only correct for same-side increases) and never touches
`realized_pnl`, where the claim requires VWAP to stay 100 and
`realized_pnl` to absorb `(110 - 100) * 5 = 50`. -/
theorem update_position_reducing_trade_result (log : ℚ → ℚ) :
    ((AdvancedRiskManager.update_position log exRisk "A" exSellTrade).positions "A").map
      (fun t => (t.position, t.vwap, t.realized_pnl)) = some (5, 110, 0) := by
  simp [AdvancedRiskManager.update_position, exRisk, exSellTrade, exTracker,
    getOrInsert, mapInsert]
  norm_num

/-- Claim C10 (confirmed): while `stop_triggered` is false every call of
`should_trigger` returns false — also the first call whose quote meets the
stop condition (ask ≥ stop for a buy, bid ≤ stop for a sell), even when
that quote already meets the limit condition — and that call sets
`stop_triggered`; once `stop_triggered` is true the state never changes
again and each call returns exactly the limit condition (ask ≤ limit for
a buy, bid ≥ limit for a sell). -/
theorem stop_limit_should_trigger_spec (o : StopLimitOrder) (q : Quote) :
    (o.stop_triggered = false →
      (o.should_trigger q).1 = false ∧
      (o.should_trigger q).2 = { o with stop_triggered := stopCond o q }) ∧
    (o.stop_triggered = true →
      (o.should_trigger q).1 = limitCond o q ∧
      (o.should_trigger q).2 = o) := by
  constructor
  · intro h
    simp [StopLimitOrder.should_trigger, h]
  · intro h
    simp [StopLimitOrder.should_trigger, h]

theorem roundHalfAway_le (x : ℚ) : (roundHalfAway x : ℚ) ≤ x + 1/2 := by
  unfold roundHalfAway
  split_ifs with h
  · exact_mod_cast Int.floor_le (x + 1/2)
  · have h2 := Int.ceil_lt_add_one (x - 1/2)
    push_cast at h2 ⊢
    linarith

theorem le_roundHalfAway (x : ℚ) : x - 1/2 ≤ (roundHalfAway x : ℚ) := by
  unfold roundHalfAway
  split_ifs with h
  · have h2 := Int.lt_floor_add_one (x + 1/2)
    push_cast at h2 ⊢
    linarith
  · exact_mod_cast Int.le_ceil (x - 1/2)

theorem roundHalfAway_mono {x y : ℚ} (h : x ≤ y) :
    roundHalfAway x ≤ roundHalfAway y := by
  unfold roundHalfAway
  split_ifs with hx hy
  · exact Int.floor_le_floor (by linarith)
  · exact absurd (le_trans hx h) hy
  · have h1 : (⌈x - 1/2⌉ : ℤ) ≤ 0 := by
      rw [Int.ceil_le]
      push_cast
      push_neg at hx
      linarith
    have h2 : (0 : ℤ) ≤ ⌊y + 1/2⌋ := by
      rw [Int.le_floor]
      push_cast
      linarith
    omega
  · exact Int.ceil_le_ceil (by linarith)

theorem round_to_tick_mono {t : ℚ} (ht : 0 < t) {x y : ℚ} (h : x ≤ y) :
    round_to_tick x t ≤ round_to_tick y t := by
  unfold round_to_tick
  have h2 : x / t ≤ y / t := by
    exact div_le_div_of_nonneg_right h ht.le
  exact mul_le_mul_of_nonneg_right (by exact_mod_cast roundHalfAway_mono h2) ht.le

theorem round_to_tick_le {t : ℚ} (ht : 0 < t) (x : ℚ) :
    round_to_tick x t ≤ x + t / 2 := by
  unfold round_to_tick
  have h1 : (roundHalfAway (x / t) : ℚ) ≤ x / t + 1/2 := roundHalfAway_le _
  calc (roundHalfAway (x / t) : ℚ) * t ≤ (x / t + 1/2) * t :=
        mul_le_mul_of_nonneg_right h1 ht.le
    _ = x + t / 2 := by field_simp; ring

theorem le_round_to_tick {t : ℚ} (ht : 0 < t) (x : ℚ) :
    x - t / 2 ≤ round_to_tick x t := by
  unfold round_to_tick
  have h1 : x / t - 1/2 ≤ (roundHalfAway (x / t) : ℚ) := le_roundHalfAway _
  calc x - t / 2 = (x / t - 1/2) * t := by field_simp; ring
    _ ≤ (roundHalfAway (x / t) : ℚ) * t := mul_le_mul_of_nonneg_right h1 ht.le

theorem levelMultiplier_mono (params : MarketMakingParams)
    (hspace : 0 ≤ params.level_spacing) {l1 l2 : ℕ} (hl : l1 ≤ l2) :
    levelMultiplier params l1 ≤ levelMultiplier params l2 := by
  unfold levelMultiplier
  have hc : (l1 : ℚ) ≤ (l2 : ℚ) := by exact_mod_cast hl
  nlinarith

/-- Claim C5 (amended): provided the adjusted spread and the level spacing
are nonnegative (as in every spec scenario, where the volatility term is
zero), `bid_px` is non-increasing and `ask_px` non-decreasing in the
level; and at zero inventory ratio the first level satisfies the
half-tick-slack bounds `bid_px[0] ≤ mid + tick/2` and
`ask_px[0] ≥ mid - tick/2` (tick rounding can push `bid_px[0]` past
`mid` itself). -/
theorem ladder_monotone_bounds (params : MarketMakingParams)
    (inventory_ratio adjusted_spread mid : ℚ) (l1 l2 : ℕ)
    (hadj : 0 ≤ adjusted_spread) (hspace : 0 ≤ params.level_spacing)
    (hmid : 0 ≤ mid) (htick : 0 < params.min_tick_size) (hl : l1 ≤ l2) :
    bidPx params inventory_ratio adjusted_spread mid l2
      ≤ bidPx params inventory_ratio adjusted_spread mid l1 ∧
    askPx params inventory_ratio adjusted_spread mid l1
      ≤ askPx params inventory_ratio adjusted_spread mid l2 ∧
    bidPx params 0 adjusted_spread mid 0 ≤ mid + params.min_tick_size / 2 ∧
    mid - params.min_tick_size / 2 ≤ askPx params 0 adjusted_spread mid 0 := by
  have hm := levelMultiplier_mono params hspace hl
  have hmul : adjusted_spread * levelMultiplier params l1
      ≤ adjusted_spread * levelMultiplier params l2 :=
    mul_le_mul_of_nonneg_left hm hadj
  refine ⟨?_, ?_, ?_, ?_⟩
  · apply round_to_tick_mono htick
    apply mul_le_mul_of_nonneg_left _ hmid
    linarith
  · apply round_to_tick_mono htick
    apply mul_le_mul_of_nonneg_left _ hmid
    linarith
  · have h0 : levelMultiplier params 0 = 1 := by
      unfold levelMultiplier; norm_num
    have harg : mid * (1 - adjusted_spread * levelMultiplier params 0 +
        0 * params.inventory_skew_factor) ≤ mid := by
      rw [h0]
      nlinarith
    calc bidPx params 0 adjusted_spread mid 0
        ≤ mid * (1 - adjusted_spread * levelMultiplier params 0 +
            0 * params.inventory_skew_factor) + params.min_tick_size / 2 :=
          round_to_tick_le htick _
      _ ≤ mid + params.min_tick_size / 2 := by linarith
  · have h0 : levelMultiplier params 0 = 1 := by
      unfold levelMultiplier; norm_num
    have harg : mid ≤ mid * (1 + adjusted_spread * levelMultiplier params 0 +
        0 * params.inventory_skew_factor) := by
      rw [h0]
      nlinarith
    calc mid - params.min_tick_size / 2
        ≤ mid * (1 + adjusted_spread * levelMultiplier params 0 +
            0 * params.inventory_skew_factor) - params.min_tick_size / 2 := by linarith
      _ ≤ askPx params 0 adjusted_spread mid 0 := le_round_to_tick htick _

/-- Claim C5 (witness): the S1 configuration at mid 100, flat inventory:
level 1's bid does not exceed level 0's, level 1's ask is at least level
0's, and the level-0 prices satisfy the half-tick bounds. -/
theorem ladder_monotone_bounds_witness :
    bidPx exParamsSkew 0 (1/1000) 100 1 ≤ bidPx exParamsSkew 0 (1/1000) 100 0 ∧
    askPx exParamsSkew 0 (1/1000) 100 0 ≤ askPx exParamsSkew 0 (1/1000) 100 1 ∧
    bidPx exParamsSkew 0 (1/1000) 100 0 ≤ 100 + exParamsSkew.min_tick_size / 2 ∧
    100 - exParamsSkew.min_tick_size / 2 ≤ askPx exParamsSkew 0 (1/1000) 100 0 :=
  ladder_monotone_bounds exParamsSkew 0 (1/1000) 100 0 1
    (by norm_num) (by norm_num [exParamsSkew]) (by norm_num)
    (by norm_num [exParamsSkew]) (by norm_num)

/-- Claim C5 (counterexample): a fully benign input — S1-style parameters
with a one-unit tick, zero inventory, zero volatility, quote bid 10.5 /
ask 10.7 (mid 10.6) — makes `update_quotes` emit a level-0 bid of 11,
which is strictly above the mid 10.6, refuting `bid_px[0] ≤ mid`. -/
theorem ladder_level0_bid_exceeds_mid :
    ((MarketMaker.update_quotes (fun _ => 0) (fun _ => 0) (fun _ => true)
        (exMaker exParamsCoarse) "A" exQuoteOddMid 0 0).emitted.map Order.price).head?
      = some 11 ∧
    inventoryRatio exParamsCoarse (0 : ℚ) = 0 ∧
    (exQuoteOddMid.bid + exQuoteOddMid.ask) / 2 = 53/5 ∧
    ¬ ((11 : ℚ) ≤ 53/5) := by
  refine ⟨?_, by norm_num [inventoryRatio, exParamsCoarse],
    by norm_num [exQuoteOddMid], by norm_num⟩
  norm_num [MarketMaker.update_quotes, exMaker, exParamsCoarse, exQuoteOddMid,
    getOrInsert, mapInsert, defaultInventory, defaultEstimator,
    VolatilityEstimator.update, inventoryRatio, adjustedSpread, ladderOrders,
    mkMakerOrder, bidPx, askPx, levelMultiplier, levelSize, round_to_tick,
    roundHalfAway, List.range_succ]

/-- Claim C6 (code_bug theorem): with the S2 configuration (position +50,
`skew_factor = 0.2`, volatility 0, mid 100) the code computes
`inventory_ratio = 0.5` and `adjusted_spread = 0.001` as claimed, but the
skew term `+ inventory_ratio * skew_factor` is added, so the emitted
level-0 bid is 109.90 — every price is shifted upward by
`mid * 0.5 * 0.2 = 10.00` relative to the flat ladder, not downward. -/
theorem inventory_skew_shift_upward :
    inventoryRatio exParamsSkew 50 = 1/2 ∧
    adjustedSpread exParamsSkew (1/2) 0 = 1/1000 ∧
    ((MarketMaker.update_quotes (fun _ => 0) (fun _ => 0) (fun _ => true)
        (exMakerPos exParamsSkew 50) "A" exQuoteMidHundred 0 0).emitted.map
        Order.price).head? = some (1099/10) ∧
    bidPx exParamsSkew (1/2) (1/1000) 100 0 = bidPx exParamsSkew 0 (1/1000) 100 0 + 10 ∧
    askPx exParamsSkew (1/2) (1/1000) 100 0 = askPx exParamsSkew 0 (1/1000) 100 0 + 10 ∧
    ¬ (bidPx exParamsSkew (1/2) (1/1000) 100 0 = bidPx exParamsSkew 0 (1/1000) 100 0 - 10) := by
  refine ⟨by norm_num [inventoryRatio, exParamsSkew],
    by norm_num [adjustedSpread, exParamsSkew], ?_, ?_, ?_, ?_⟩
  · norm_num [MarketMaker.update_quotes, exMakerPos, exParamsSkew, exQuoteMidHundred,
      getOrInsert, mapInsert, defaultInventory, defaultEstimator,
      VolatilityEstimator.update, inventoryRatio, adjustedSpread, ladderOrders,
      mkMakerOrder, bidPx, askPx, levelMultiplier, levelSize, round_to_tick,
      roundHalfAway, List.range_succ]
  · norm_num [bidPx, exParamsSkew, levelMultiplier, round_to_tick, roundHalfAway]
  · norm_num [askPx, exParamsSkew, levelMultiplier, round_to_tick, roundHalfAway]
  · norm_num [bidPx, exParamsSkew, levelMultiplier, round_to_tick, roundHalfAway]

/-- Claim C7 (counterexample): with base size 100 and four levels, the
level-3 size `100 / 2^3 = 12.5` is truncated by the `size_t` field
`Order::quantity`, so `update_quotes` emits quantities
`[100, 100, 50, 50, 25, 25, 12, 12]`, and `12 ≠ 100 / 2^3`. -/
theorem ladder_sizes_truncation_counterexample :
    ((MarketMaker.update_quotes (fun _ => 0) (fun _ => 0) (fun _ => true)
        (exMaker exParamsFour) "A" exQuoteMidHundred 0 0).emitted.map
        Order.quantity) = [100, 100, 50, 50, 25, 25, 12, 12] ∧
    levelSize exParamsFour 3 = 25/2 ∧
    ¬ ((12 : ℚ) = 25/2) := by
  refine ⟨?_, by norm_num [levelSize, exParamsFour], by norm_num⟩
  norm_num [MarketMaker.update_quotes, exMaker, exParamsFour, exQuoteMidHundred,
    getOrInsert, mapInsert, defaultInventory, defaultEstimator,
    VolatilityEstimator.update, inventoryRatio, adjustedSpread, ladderOrders,
    mkMakerOrder, bidPx, askPx, levelMultiplier, levelSize, round_to_tick,
    roundHalfAway, toQuantity, ratTrunc, List.range_succ]
  decide

/-- Claim C7 (amended): when every ladder order passes the risk check, one
`update_quotes` call emits, per level `l` and on each side, an order whose
`size_t` quantity is the truncation of `base_size / 2^l`; this equals the
exact geometric value only when `base_size / 2^l` is an integer (as in
the sizes-[100, 50, 25] scenario). -/
theorem ladder_sizes_spec (log sqrt : ℚ → ℚ) (mm : MarketMaker) (symbol : SymId)
    (market_quote : Quote) (counter : ℕ) (now : ℤ) (params : MarketMakingParams)
    (hp : mm.symbol_params symbol = some params) :
    ((MarketMaker.update_quotes log sqrt (fun _ => true) mm symbol market_quote
        counter now).emitted.map Order.quantity)
      = (List.range params.levels).flatMap
          (fun level => [toQuantity (levelSize params level),
                         toQuantity (levelSize params level)]) := by
  unfold MarketMaker.update_quotes
  simp only [hp]
  simp [ladderOrders, mkMakerOrder, List.map_flatMap]

/-- Claim C7 (witness): the four-level configuration instantiates the
amended size schedule. -/
theorem ladder_sizes_spec_witness :
    ((MarketMaker.update_quotes (fun _ => (0:ℚ)) (fun _ => (0:ℚ)) (fun _ => true)
        (exMaker exParamsFour) "A" exQuoteMidHundred 0 0).emitted.map Order.quantity)
      = (List.range exParamsFour.levels).flatMap
          (fun level => [toQuantity (levelSize exParamsFour level),
                         toQuantity (levelSize exParamsFour level)]) :=
  ladder_sizes_spec (fun _ => 0) (fun _ => 0) (exMaker exParamsFour) "A"
    exQuoteMidHundred 0 0 exParamsFour (by simp [exMaker])

/-- Claim C8 (code_bug theorem): the maker-path estimator pushes raw
prices into its returns deque, so after the three equal prices 4, 4, 4 —
whose true log-returns are 0, 0, giving claimed volatility
`sqrt(mean(r^2) - mean(r)^2) = 0` — `current_volatility` is
`sqrt((4^2 + 0^2)/2 - ((4 + 0)/2)^2) = sqrt 4 = 2 ≠ 0` (the window mixes
the price 4 with the return 0). -/
theorem maker_volatility_spurious (log sqrt : ℚ → ℚ)
    (hlog : log 1 = 0) (hsqrt : sqrt 4 = 2) :
    (((defaultEstimator.update log sqrt 4).update log sqrt 4).update log
        sqrt 4).current_volatility = 2 ∧
    ((2 : ℚ) ≠ 0) := by
  refine ⟨?_, by norm_num⟩
  have h1 : defaultEstimator.update log sqrt 4
      = ⟨[4], 0, 0⟩ := by
    simp [VolatilityEstimator.update, defaultEstimator]
  have h2 : (⟨[4], 0, 0⟩ : VolatilityEstimator).update log sqrt 4
      = ⟨[0, 4], 0, sqrt 0⟩ := by
    have h44 : (4 : ℚ) / 4 = 1 := by norm_num
    simp [VolatilityEstimator.update, h44, hlog]
  have h3 : ((⟨[0, 4], 0, sqrt 0⟩ : VolatilityEstimator).update log
      sqrt 4).current_volatility = 2 := by
    have h44 : (4 : ℚ) / 4 = 1 := by norm_num
    simp [VolatilityEstimator.update, h44, hlog]
    norm_num
    exact hsqrt
  rw [h1, h2, h3]

/-- Claim C8 (witness): the spurious maker volatility at the concrete
square root taking 4 to 2 and the zero logarithm. -/
theorem maker_volatility_spurious_witness :
    (((defaultEstimator.update (fun _ => (0:ℚ)) exSqrt 4).update
        (fun _ => (0:ℚ)) exSqrt 4).update (fun _ => (0:ℚ)) exSqrt
        4).current_volatility = 2 ∧
    ((2 : ℚ) ≠ 0) :=
  maker_volatility_spurious (fun _ => 0) exSqrt rfl (by norm_num [exSqrt])

theorem push_full {N : ℕ} (q : LockFreeQueue α N) (x : α)
    (h : (q.tail + 1) % N = q.head) :
    (q.push x).1 = false ∧ (q.push x).2 = q := by
  simp [LockFreeQueue.push, h]

theorem push_ok {N : ℕ} (q : LockFreeQueue α N) (x : α)
    (h : (q.tail + 1) % N ≠ q.head) :
    (q.push x).1 = true ∧
    (q.push x).2.head = q.head ∧
    (q.push x).2.tail = (q.tail + 1) % N ∧
    ∀ i, (q.push x).2.buffer i = if i = q.tail then x else q.buffer i := by
  simp [LockFreeQueue.push, h]

theorem pop_some {N : ℕ} (q : LockFreeQueue α N) (h : ¬ q.head = q.tail) :
    (q.pop).1 = some (q.buffer q.head) ∧
    (q.pop).2.head = (q.head + 1) % N ∧
    (q.pop).2.tail = q.tail ∧
    (q.pop).2.buffer = q.buffer := by
  simp [LockFreeQueue.pop, h]

theorem pushList_cons {N : ℕ} (q : LockFreeQueue α N) (x : α) (xs : List α) :
    q.pushList (x :: xs) = ((q.push x).1 :: ((q.push x).2.pushList xs).1,
                            ((q.push x).2.pushList xs).2) := rfl

theorem pushList_run {N : ℕ} (a0 : α) :
    ∀ (xs : List α) (k : ℕ) (buf : ℕ → α), k + xs.length + 1 ≤ N →
      (LockFreeQueue.pushList (⟨buf, 0, k⟩ : LockFreeQueue α N) xs).1
          = List.replicate xs.length true ∧
      (LockFreeQueue.pushList (⟨buf, 0, k⟩ : LockFreeQueue α N) xs).2.head = 0 ∧
      (LockFreeQueue.pushList (⟨buf, 0, k⟩ : LockFreeQueue α N) xs).2.tail
          = k + xs.length ∧
      ∀ i : ℕ, (LockFreeQueue.pushList (⟨buf, 0, k⟩ : LockFreeQueue α N) xs).2.buffer i
          = if k ≤ i ∧ i < k + xs.length then xs.getD (i - k) a0 else buf i := by
  intro xs
  induction xs with
  | nil =>
    intro k buf hk
    refine ⟨rfl, rfl, by simp [LockFreeQueue.pushList], ?_⟩
    intro i
    have h : ¬ (k ≤ i ∧ i < k + List.length ([] : List α)) := by
      simp only [List.length_nil, Nat.add_zero]
      omega
    rw [if_neg h]
    rfl
  | cons x xs ih =>
    intro k buf hk
    have hlen : (x :: xs).length = xs.length + 1 := rfl
    have hlt : k + 1 < N := by
      rw [hlen] at hk; omega
    have hpush : (LockFreeQueue.push (⟨buf, 0, k⟩ : LockFreeQueue α N) x)
        = (true, ⟨fun i => if i = k then x else buf i, 0, k + 1⟩) := by
      simp [LockFreeQueue.push, Nat.mod_eq_of_lt hlt]
    obtain ⟨ih1, ih2, ih3, ih4⟩ := ih (k + 1) (fun i => if i = k then x else buf i)
      (by rw [hlen] at hk; omega)
    rw [pushList_cons, hpush]
    refine ⟨?_, ?_, ?_, ?_⟩
    · dsimp only
      rw [ih1, hlen, List.replicate_succ]
    · dsimp only
      exact ih2
    · dsimp only
      rw [ih3, hlen]
      omega
    · intro i
      dsimp only
      rw [ih4 i]
      by_cases h1 : k ≤ i ∧ i < k + (x :: xs).length
      · rw [if_pos h1]
        by_cases h2 : k + 1 ≤ i ∧ i < k + 1 + xs.length
        · rw [if_pos h2]
          have h3 : i - k = (i - (k + 1)) + 1 := by omega
          rw [h3, List.getD_cons_succ]
        · have h3 : i = k := by
            rw [hlen] at h1
            omega
          rw [if_neg h2, if_pos h3, h3]
          simp
      · rw [if_neg h1]
        have h2 : ¬ (k + 1 ≤ i ∧ i < k + 1 + xs.length) := by
          rw [hlen] at h1
          omega
        have h3 : ¬ (i = k) := by
          rw [hlen] at h1
          omega
        rw [if_neg h2, if_neg h3]

theorem map_range_shift {α : Type} (f : ℕ → α) (n j : ℕ) :
    (List.range (n + 1)).map (fun i => f (j + i))
      = f j :: (List.range n).map (fun i => f (j + 1 + i)) := by
  rw [List.range_succ_eq_map, List.map_cons, List.map_map]
  congr 1
  apply List.map_congr_left
  intro i _
  simp only [Function.comp_apply]
  congr 1
  omega

theorem popN_run {N : ℕ} (buf : ℕ → α) :
    ∀ (n j : ℕ), 0 < j → j < N → j + n ≤ N →
      (LockFreeQueue.popN (⟨buf, j, 0⟩ : LockFreeQueue α N) n).1
          = (List.range n).map (fun i => buf (j + i)) ∧
      (LockFreeQueue.popN (⟨buf, j, 0⟩ : LockFreeQueue α N) n).2
          = ⟨buf, (j + n) % N, 0⟩ := by
  intro n
  induction n with
  | zero =>
    intro j hj hjN hsum
    refine ⟨rfl, ?_⟩
    show (⟨buf, j, 0⟩ : LockFreeQueue α N) = ⟨buf, (j + 0) % N, 0⟩
    rw [Nat.add_zero, Nat.mod_eq_of_lt hjN]
  | succ n ih =>
    intro j hj hjN hsum
    have hne : ¬ (j = 0) := by omega
    have hpop : (LockFreeQueue.pop (⟨buf, j, 0⟩ : LockFreeQueue α N))
        = (some (buf j), ⟨buf, (j + 1) % N, 0⟩) := by
      simp [LockFreeQueue.pop, hne]
    have key : (LockFreeQueue.popN (⟨buf, j, 0⟩ : LockFreeQueue α N) (n + 1))
        = (buf j :: (LockFreeQueue.popN (⟨buf, (j + 1) % N, 0⟩ : LockFreeQueue α N) n).1,
           (LockFreeQueue.popN (⟨buf, (j + 1) % N, 0⟩ : LockFreeQueue α N) n).2) := by
      simp only [LockFreeQueue.popN, hpop]
    by_cases hj1 : j + 1 < N
    · have hmod : (j + 1) % N = j + 1 := Nat.mod_eq_of_lt hj1
      obtain ⟨ih1, ih2⟩ := ih (j + 1) (by omega) hj1 (by omega)
      rw [key, hmod]
      constructor
      · dsimp only
        rw [ih1, map_range_shift]
      · dsimp only
        rw [ih2]
        have : j + 1 + n = j + (n + 1) := by omega
        rw [this]
    · have hn0 : n = 0 := by omega
      subst hn0
      rw [key]
      constructor
      · dsimp only
        rfl
      · dsimp only
        rfl

/-- Claim C4 (amended): from empty, a ring of size N accepts exactly the
first N-1 pushes (the ring keeps one slot free to tell full from empty)
and the N-th push reports full; one pop then returns the first pushed
item, a further push succeeds, and popping N-1 more times returns the
remaining accepted items followed by the new one — FIFO order with no
duplicates and no losses beyond the push that reported full. -/
theorem queue_scenario_fifo {α : Type} (a0 : α) (N : ℕ) (xs : List α) (y : α)
    (hN : 2 ≤ N) (hlen : xs.length = N - 1) :
    (LockFreeQueue.pushList (⟨fun _ => a0, 0, 0⟩ : LockFreeQueue α N) xs).1
        = List.replicate (N - 1) true ∧
    ((LockFreeQueue.pushList (⟨fun _ => a0, 0, 0⟩ : LockFreeQueue α N) xs).2.push y).1
        = false ∧
    ((LockFreeQueue.pushList (⟨fun _ => a0, 0, 0⟩ : LockFreeQueue α N) xs).2.pop).1
        = some (xs.getD 0 a0) ∧
    (((LockFreeQueue.pushList (⟨fun _ => a0, 0, 0⟩ : LockFreeQueue α N) xs).2.pop).2.push y).1
        = true ∧
    ((((LockFreeQueue.pushList (⟨fun _ => a0, 0, 0⟩ : LockFreeQueue α N) xs).2.pop).2.push y).2.popN
        (N - 1)).1 = xs.tail ++ [y] := by
  obtain ⟨hr1, hr2, hr3, hr4⟩ := @pushList_run α N a0 xs 0 (fun _ => a0) (by omega)
  have hlen1 : 1 ≤ xs.length := by omega
  set P := (LockFreeQueue.pushList (⟨fun _ => a0, 0, 0⟩ : LockFreeQueue α N) xs).2 with hPdef
  have e1 : 0 + xs.length + 1 = N := by omega
  have hfull : (P.tail + 1) % N = P.head := by
    rw [hr3, hr2, e1, Nat.mod_self]
  have hne : ¬ P.head = P.tail := by
    rw [hr2, hr3]
    omega
  obtain ⟨hp1, hp2, hp3, hp4⟩ := pop_some P hne
  set Q2 := P.pop.2 with hQ2def
  have hcond : (Q2.tail + 1) % N ≠ Q2.head := by
    rw [hp3, hp2, hr3, hr2, e1, Nat.mod_self]
    have e2 : (0 + 1) % N = 1 := Nat.mod_eq_of_lt (by omega)
    rw [e2]
    omega
  obtain ⟨hq1, hq2, hq3, hq4⟩ := push_ok Q2 y hcond
  set Q3 := (Q2.push y).2 with hQ3def
  have hq2b : Q3.head = 1 := by
    rw [hq2, hp2, hr2]
    exact Nat.mod_eq_of_lt (by omega)
  have hq3b : Q3.tail = 0 := by
    rw [hq3, hp3, hr3, e1, Nat.mod_self]
  have hQ3 : Q3 = ⟨Q3.buffer, 1, 0⟩ := by
    rw [← hq2b, ← hq3b]
  have hpopped : (Q3.popN (N - 1)).1 = xs.tail ++ [y] := by
    rw [hQ3]
    obtain ⟨hn1, hn2⟩ := @popN_run α N Q3.buffer (N - 1) 1 (by omega) (by omega) (by omega)
    rw [hn1]
    have hbuf : ∀ i, i < N - 1 →
        Q3.buffer (1 + i) = if 1 + i = N - 1 then y else xs.getD (1 + i) a0 := by
      intro i hi
      rw [hq4 (1 + i)]
      have ht : Q2.tail = N - 1 := by
        rw [hp3, hr3]
        omega
      rw [ht, hp4]
      by_cases hcase : 1 + i = N - 1
      · rw [if_pos hcase, if_pos hcase]
      · rw [if_neg hcase, if_neg hcase, hr4 (1 + i), if_pos ⟨by omega, by omega⟩]
        norm_num
    apply List.ext_getElem
    · simp [List.length_tail, hlen]
      omega
    · intro i h1 h2
      simp only [List.getElem_map, List.getElem_range]
      have hiN : i < N - 1 := by
        simpa using h1
      rw [hbuf i hiN]
      have htl : xs.tail.length = N - 2 := by
        simp [List.length_tail, hlen]
        omega
      by_cases hi2 : 1 + i = N - 1
      · rw [if_pos hi2]
        have hge : xs.tail.length ≤ i := by omega
        rw [List.getElem_append_right hge]
        simp
      · rw [if_neg hi2]
        have hlt2 : i < xs.tail.length := by omega
        rw [List.getElem_append_left hlt2, List.getElem_tail]
        rw [List.getD_eq_getElem xs a0 (by omega)]
        congr 1
        omega
  have hpopres : (P.pop).1 = some (xs.getD 0 a0) := by
    rw [hp1, hr2, hr4 0, if_pos ⟨le_refl 0, by omega⟩]
  exact ⟨by rw [hr1, hlen], (push_full P y hfull).1, hpopres, hq1, hpopped⟩

/-- Claim C4 (witness): the capacity-8 scenario of S5 with items 1..7 and
then 8: seven accepted pushes, a full eighth, one pop returning 1, one
accepted push of 8, and a FIFO drain of the remaining items. -/
theorem queue_scenario_fifo_witness :
    (LockFreeQueue.pushList (⟨fun _ => (0:ℕ), 0, 0⟩ : LockFreeQueue ℕ 8)
        [1, 2, 3, 4, 5, 6, 7]).1 = List.replicate 7 true ∧
    ((LockFreeQueue.pushList (⟨fun _ => (0:ℕ), 0, 0⟩ : LockFreeQueue ℕ 8)
        [1, 2, 3, 4, 5, 6, 7]).2.push 8).1 = false ∧
    ((LockFreeQueue.pushList (⟨fun _ => (0:ℕ), 0, 0⟩ : LockFreeQueue ℕ 8)
        [1, 2, 3, 4, 5, 6, 7]).2.pop).1 = some 1 ∧
    (((LockFreeQueue.pushList (⟨fun _ => (0:ℕ), 0, 0⟩ : LockFreeQueue ℕ 8)
        [1, 2, 3, 4, 5, 6, 7]).2.pop).2.push 8).1 = true ∧
    ((((LockFreeQueue.pushList (⟨fun _ => (0:ℕ), 0, 0⟩ : LockFreeQueue ℕ 8)
        [1, 2, 3, 4, 5, 6, 7]).2.pop).2.push 8).2.popN 7).1 = [2, 3, 4, 5, 6, 7, 8] :=
  queue_scenario_fifo 0 8 [1, 2, 3, 4, 5, 6, 7] 8 (by norm_num) rfl

/-- Claim C4 (counterexample): on a ring of size 8 the 8th push from
empty already reports full (only 7 slots are usable), so 8 consecutive
pushes do not all return accepted. -/
theorem queue_push_capacity_counterexample :
    (LockFreeQueue.pushList (⟨fun _ => (0:ℕ), 0, 0⟩ : LockFreeQueue ℕ 8)
        [1, 2, 3, 4, 5, 6, 7, 8]).1
      = [true, true, true, true, true, true, true, false] ∧
    ¬ ((LockFreeQueue.pushList (⟨fun _ => (0:ℕ), 0, 0⟩ : LockFreeQueue ℕ 8)
        [1, 2, 3, 4, 5, 6, 7, 8]).1 = List.replicate 8 true) := by
  constructor <;> decide
